import Mathlib

/-!
Verification of the p2p presence registry (`src/server/server.js`,
`setupUserRoutes`) and the client connection orchestrator
(`src/client/services/ConnectionManager.ts`) against their natural-language
specification.  JavaScript `Map` objects are embedded as association lists in
insertion order; timestamps (`Date.now()`) are `Nat` milliseconds.
-/

set_option autoImplicit false

namespace P2P

/-! ## Association-list embedding of a JavaScript `Map` -/

namespace JsMap

variable {κ : Type} {ν : Type} [DecidableEq κ]

/-- `map.get(k)`: first (and, for reachable maps, only) binding of `k`. -/
def get (k : κ) : List (κ × ν) → Option ν
  | [] => none
  | (q, v) :: rest => if q = k then some v else get k rest

/-- `map.set(k, v)`: replace the binding in place if the key is present
(JS `Map` keeps insertion order on overwrite), otherwise append. -/
def set (k : κ) (v : ν) : List (κ × ν) → List (κ × ν)
  | [] => [(k, v)]
  | (q, w) :: rest => if q = k then (k, v) :: rest else (q, w) :: set k v rest

/-- `map.delete(k)`: remove the binding of `k`. -/
def del (k : κ) : List (κ × ν) → List (κ × ν)
  | [] => []
  | (q, w) :: rest => if q = k then del k rest else (q, w) :: del k rest

/-- `map.has(k)`. -/
def has (k : κ) (m : List (κ × ν)) : Bool :=
  (get k m).isSome

/-- Keys of the map, in insertion order. -/
def keys : List (κ × ν) → List κ
  | [] => []
  | (q, _) :: rest => q :: keys rest

theorem get_set_self (k : κ) (v : ν) (m : List (κ × ν)) :
    get k (set k v m) = some v := by
  induction m with
  | nil => simp [set, get]
  | cons p rest ih =>
    obtain ⟨q, w⟩ := p
    by_cases h : q = k
    · simp [set, get, h]
    · simp [set, get, h, ih]

theorem get_set_ne (k k' : κ) (v : ν) (m : List (κ × ν)) (h : k' ≠ k) :
    get k' (set k v m) = get k' m := by
  induction m with
  | nil => simp [set, get, Ne.symm h]
  | cons p rest ih =>
    obtain ⟨q, w⟩ := p
    by_cases hq : q = k
    · subst hq
      simp [set, get, Ne.symm h]
    · simp only [set, if_neg hq, get]
      by_cases hq' : q = k'
      · simp [hq']
      · simp [hq', ih]

theorem get_del_self (k : κ) (m : List (κ × ν)) :
    get k (del k m) = none := by
  induction m with
  | nil => simp [del, get]
  | cons p rest ih =>
    obtain ⟨q, w⟩ := p
    by_cases h : q = k
    · simpa [del, h] using ih
    · simpa [del, get, h] using ih

theorem get_del_ne (k k' : κ) (m : List (κ × ν)) (h : k' ≠ k) :
    get k' (del k m) = get k' m := by
  induction m with
  | nil => simp [del, get]
  | cons p rest ih =>
    obtain ⟨q, w⟩ := p
    by_cases hq : q = k
    · subst hq
      simpa [del, get, Ne.symm h] using ih
    · simp only [del, if_neg hq, get]
      by_cases hq' : q = k'
      · simp [hq']
      · simp [hq', ih]

theorem mem_keys_iff_get (k : κ) (m : List (κ × ν)) :
    k ∈ keys m ↔ (get k m).isSome := by
  induction m with
  | nil => simp [keys, get]
  | cons p rest ih =>
    obtain ⟨q, w⟩ := p
    by_cases h : q = k
    · simp [keys, get, h]
    · simp [keys, get, h, ih, Ne.symm h]

theorem get_eq_none_of_not_mem_keys (k : κ) (m : List (κ × ν))
    (h : k ∉ keys m) : get k m = none := by
  cases hg : get k m with
  | none => rfl
  | some v => exact absurd ((mem_keys_iff_get k m).2 (by simp [hg])) h

theorem mem_keys_set_iff (k k' : κ) (v : ν) (m : List (κ × ν)) :
    k' ∈ keys (set k v m) ↔ k' ∈ keys m ∨ k' = k := by
  induction m with
  | nil => simp [set, keys]
  | cons p rest ih =>
    obtain ⟨q, w⟩ := p
    by_cases hq : q = k
    · subst hq
      simp only [set, if_pos rfl, keys, List.mem_cons]
      tauto
    · simp only [set, if_neg hq, keys, List.mem_cons, ih]
      tauto

theorem nodup_keys_set (k : κ) (v : ν) (m : List (κ × ν))
    (hnd : (keys m).Nodup) : (keys (set k v m)).Nodup := by
  induction m with
  | nil => simp [set, keys]
  | cons p rest ih =>
    obtain ⟨q, w⟩ := p
    simp only [keys, List.nodup_cons] at hnd
    by_cases hq : q = k
    · subst hq
      simpa [set, keys, List.nodup_cons] using hnd
    · have hnotin : q ∉ keys (set k v rest) := by
        intro hmem
        rcases (mem_keys_set_iff k q v rest).1 hmem with h1 | h2
        · exact hnd.1 h1
        · exact hq h2
      simpa [set, hq, keys, List.nodup_cons] using ⟨hnotin, ih hnd.2⟩

theorem mem_keys_del (k k' : κ) (m : List (κ × ν))
    (h : k' ∈ keys (del k m)) : k' ∈ keys m := by
  induction m with
  | nil => simp [del, keys] at h
  | cons p rest ih =>
    obtain ⟨q, w⟩ := p
    by_cases hq : q = k
    · exact by
        simp only [keys, List.mem_cons]
        exact Or.inr (ih (by simpa [del, hq] using h))
    · rcases (by simpa [del, hq, keys, List.mem_cons] using h :
        k' = q ∨ k' ∈ keys (del k rest)) with h1 | h2
      · simp [keys, h1]
      · simp only [keys, List.mem_cons]
        exact Or.inr (ih h2)

theorem get_append (k : κ) (m m' : List (κ × ν)) :
    get k (m ++ m') =
      match get k m with
      | some v => some v
      | none => get k m' := by
  induction m with
  | nil => simp [get]
  | cons p rest ih =>
    obtain ⟨q, w⟩ := p
    by_cases h : q = k
    · simp [get, h]
    · simpa [get, h] using ih

omit [DecidableEq κ] in
theorem exists_of_mem_keys {k : κ} {m : List (κ × ν)} (h : k ∈ keys m) :
    ∃ v, (k, v) ∈ m := by
  induction m with
  | nil => simp [keys] at h
  | cons p rest ih =>
    obtain ⟨q, w⟩ := p
    rcases (by simpa [keys] using h : k = q ∨ k ∈ keys rest) with h1 | h2
    · exact ⟨w, by simp [h1]⟩
    · obtain ⟨v, hv⟩ := ih h2
      exact ⟨v, by simp [hv]⟩

theorem nodup_keys_del (k : κ) (m : List (κ × ν))
    (hnd : (keys m).Nodup) : (keys (del k m)).Nodup := by
  induction m with
  | nil => simp [del, keys]
  | cons p rest ih =>
    obtain ⟨q, w⟩ := p
    simp only [keys, List.nodup_cons] at hnd
    by_cases hq : q = k
    · simpa [del, hq] using ih hnd.2
    · have hnotin : q ∉ keys (del k rest) := by
        intro hmem
        exact hnd.1 (mem_keys_del k q rest hmem)
      simpa [del, hq, keys, List.nodup_cons] using ⟨hnotin, ih hnd.2⟩

end JsMap

/-! ## Presence registry (`src/server/server.js`, `setupUserRoutes`)

The `onlineUsers` map holds `{ username, lastHeartbeat }` records.  HTTP
responses are embedded as `(status, success)` pairs; JavaScript string
truthiness (`if (peerId && ...)`) becomes `peerId ≠ ""`. -/

/-- A value of the `onlineUsers` map: `{ username, lastHeartbeat: Date.now() }`. -/
structure UserRecord where
  username : String
  lastHeartbeat : Nat
  deriving Repr, DecidableEq

/-- The `onlineUsers` map. -/
abbrev Registry := List (String × UserRecord)

/-- `const USER_TIMEOUT = 30000` (staleness timeout, ms). -/
def USER_TIMEOUT : Nat := 30000

/-- `const HEARTBEAT_CHECK_INTERVAL = 10000` (sweep interval, ms). -/
def HEARTBEAT_CHECK_INTERVAL : Nat := 10000

/-- `POST /api/register`: on truthy `peerId` and `username`, insert or
overwrite the record with `lastHeartbeat = Date.now()` and answer
`(200, success: true)`; otherwise answer `(400, success: false)`. -/
def registerOp (peerId username : String) (now : Nat) (reg : Registry) :
    (Nat × Bool) × Registry :=
  if peerId ≠ "" ∧ username ≠ "" then
    ((200, true), JsMap.set peerId ⟨username, now⟩ reg)
  else
    ((400, false), reg)

/-- `POST /api/unregister`: if `peerId` is truthy and present, delete it and
answer `(200, success: true)`; otherwise answer `(200, success: false)`
leaving the map unchanged. -/
def unregisterOp (peerId : String) (reg : Registry) :
    (Nat × Bool) × Registry :=
  if peerId ≠ "" ∧ (JsMap.get peerId reg).isSome then
    ((200, true), JsMap.del peerId reg)
  else
    ((200, false), reg)

/-- `POST /api/heartbeat`: if `peerId` is truthy and present, set the record's
`lastHeartbeat` to `Date.now()` and answer `(200, success: true)`; otherwise
answer `(404, success: false)` leaving the map unchanged. -/
def heartbeatOp (peerId : String) (now : Nat) (reg : Registry) :
    (Nat × Bool) × Registry :=
  if peerId = "" then ((404, false), reg)
  else
    match JsMap.get peerId reg with
    | some u => ((200, true), JsMap.set peerId ⟨u.username, now⟩ reg)
    | none => ((404, false), reg)

/-- `GET /api/users`: `{ users: [{peerId, username}, ...] }` mapped over the
entries of `onlineUsers`; a pure read. -/
def listPeers (reg : Registry) : List (String × String) :=
  reg.map (fun pr => (pr.1, pr.2.username))

/-- One sweep tick (`setInterval` body): for each entry, delete it when
`now - data.lastHeartbeat > USER_TIMEOUT` (Nat subtraction agrees with the JS
comparison: a negative JS difference is never `> USER_TIMEOUT`, and truncated
Nat subtraction yields `0`, likewise never `> USER_TIMEOUT`). -/
def sweepTick (now : Nat) : Registry → Registry
  | [] => []
  | (p, r) :: rest =>
      if now - r.lastHeartbeat > USER_TIMEOUT then sweepTick now rest
      else (p, r) :: sweepTick now rest

/-- Well-formedness of reachable registries: keys are unique (a JS `Map`) and
nonempty (registration rejects a falsy `peerId`). -/
def RegWF (reg : Registry) : Prop :=
  (JsMap.keys reg).Nodup ∧ ∀ pr ∈ reg, pr.1 ≠ ""

instance : DecidablePred RegWF := fun reg => by
  unfold RegWF
  infer_instance

theorem regWF_nil : RegWF [] := by
  constructor
  · simp [JsMap.keys]
  · intro pr h
    simp at h

theorem mem_of_mem_keys {k : String} {reg : Registry}
    (h : k ∈ JsMap.keys reg) : ∃ r, (k, r) ∈ reg := by
  induction reg with
  | nil => simp [JsMap.keys] at h
  | cons p rest ih =>
    obtain ⟨q, w⟩ := p
    rcases (by simpa [JsMap.keys] using h : k = q ∨ k ∈ JsMap.keys rest) with h1 | h2
    · exact ⟨w, by simp [h1]⟩
    · obtain ⟨r, hr⟩ := ih h2
      exact ⟨r, by simp [hr]⟩

theorem get_empty_eq_none_of_wf {reg : Registry} (hwf : RegWF reg) :
    JsMap.get "" reg = none := by
  apply JsMap.get_eq_none_of_not_mem_keys
  intro hmem
  obtain ⟨r, hr⟩ := mem_of_mem_keys hmem
  exact hwf.2 ⟨"", r⟩ hr rfl

theorem mem_set_of_mem {k : String} {v : UserRecord} {reg : Registry}
    {pr : String × UserRecord} (h : pr ∈ JsMap.set k v reg) :
    pr ∈ reg ∨ pr = (k, v) := by
  induction reg with
  | nil => simpa [JsMap.set] using h
  | cons p rest ih =>
    obtain ⟨q, w⟩ := p
    by_cases hq : q = k
    · rcases (by simpa [JsMap.set, hq] using h :
        pr = (k, v) ∨ pr ∈ rest) with h1 | h2
      · exact Or.inr h1
      · exact Or.inl (by simp [h2])
    · rcases (by simpa [JsMap.set, hq] using h :
        pr = (q, w) ∨ pr ∈ JsMap.set k v rest) with h1 | h2
      · exact Or.inl (by simp [h1])
      · rcases ih h2 with h3 | h4
        · exact Or.inl (by simp [h3])
        · exact Or.inr h4

theorem mem_del_of_mem {k : String} {reg : Registry}
    {pr : String × UserRecord} (h : pr ∈ JsMap.del k reg) : pr ∈ reg := by
  induction reg with
  | nil => simp [JsMap.del] at h
  | cons p rest ih =>
    obtain ⟨q, w⟩ := p
    by_cases hq : q = k
    · exact by simpa using Or.inr (ih (by simpa [JsMap.del, hq] using h))
    · rcases (by simpa [JsMap.del, hq] using h :
        pr = (q, w) ∨ pr ∈ JsMap.del k rest) with h1 | h2
      · simp [h1]
      · exact by simpa using Or.inr (ih h2)

theorem mem_sweepTick_of_mem {now : Nat} {reg : Registry}
    {pr : String × UserRecord} (h : pr ∈ sweepTick now reg) : pr ∈ reg := by
  induction reg with
  | nil => simp [sweepTick] at h
  | cons p rest ih =>
    obtain ⟨q, w⟩ := p
    by_cases hs : now - w.lastHeartbeat > USER_TIMEOUT
    · exact by simpa using Or.inr (ih (by simpa [sweepTick, hs] using h))
    · rcases (by simpa [sweepTick, hs] using h :
        pr = (q, w) ∨ pr ∈ sweepTick now rest) with h1 | h2
      · simp [h1]
      · exact by simpa using Or.inr (ih h2)

theorem mem_keys_sweepTick {now : Nat} {reg : Registry} {k : String}
    (h : k ∈ JsMap.keys (sweepTick now reg)) : k ∈ JsMap.keys reg := by
  induction reg with
  | nil => simp [sweepTick, JsMap.keys] at h
  | cons p rest ih =>
    obtain ⟨q, w⟩ := p
    by_cases hs : now - w.lastHeartbeat > USER_TIMEOUT
    · simp only [JsMap.keys, List.mem_cons]
      exact Or.inr (ih (by simpa [sweepTick, hs] using h))
    · rcases (by simpa [sweepTick, hs, JsMap.keys] using h :
        k = q ∨ k ∈ JsMap.keys (sweepTick now rest)) with h1 | h2
      · simp [JsMap.keys, h1]
      · simp only [JsMap.keys, List.mem_cons]
        exact Or.inr (ih h2)

theorem nodup_keys_sweepTick {now : Nat} {reg : Registry}
    (hnd : (JsMap.keys reg).Nodup) :
    (JsMap.keys (sweepTick now reg)).Nodup := by
  induction reg with
  | nil => simp [sweepTick, JsMap.keys]
  | cons p rest ih =>
    obtain ⟨q, w⟩ := p
    simp only [JsMap.keys, List.nodup_cons] at hnd
    by_cases hs : now - w.lastHeartbeat > USER_TIMEOUT
    · simpa [sweepTick, hs] using ih hnd.2
    · have hnotin : q ∉ JsMap.keys (sweepTick now rest) := by
        intro hmem
        exact hnd.1 (mem_keys_sweepTick hmem)
      simpa [sweepTick, hs, JsMap.keys, List.nodup_cons] using
        ⟨hnotin, ih hnd.2⟩

/-- The binding of `k` after a sweep tick: removed exactly when it was stale
at the tick, kept verbatim otherwise (key uniqueness required). -/
theorem get_sweepTick (now : Nat) (k : String) (reg : Registry)
    (hnd : (JsMap.keys reg).Nodup) :
    JsMap.get k (sweepTick now reg) =
      match JsMap.get k reg with
      | some r => if now - r.lastHeartbeat > USER_TIMEOUT then none else some r
      | none => none := by
  induction reg with
  | nil => simp [sweepTick, JsMap.get]
  | cons p rest ih =>
    obtain ⟨q, w⟩ := p
    simp only [JsMap.keys, List.nodup_cons] at hnd
    by_cases hq : q = k
    · subst hq
      have hget : JsMap.get q rest = none :=
        JsMap.get_eq_none_of_not_mem_keys q rest hnd.1
      by_cases hs : now - w.lastHeartbeat > USER_TIMEOUT
      · have : JsMap.get q (sweepTick now rest) = none := by
          rw [ih hnd.2, hget]
        simp [sweepTick, hs, JsMap.get, this]
      · simp [sweepTick, hs, JsMap.get]
    · by_cases hs : now - w.lastHeartbeat > USER_TIMEOUT
      · simpa [sweepTick, hs, JsMap.get, hq] using ih hnd.2
      · simpa [sweepTick, hs, JsMap.get, hq] using ih hnd.2

theorem regWF_registerOp {peerId username : String} {now : Nat}
    {reg : Registry} (hwf : RegWF reg) :
    RegWF (registerOp peerId username now reg).2 := by
  unfold registerOp
  by_cases h : peerId ≠ "" ∧ username ≠ ""
  · have hall : ∀ pr ∈ JsMap.set peerId ⟨username, now⟩ reg, pr.1 ≠ "" := by
      intro pr hpr
      rcases mem_set_of_mem hpr with h1 | h2
      · exact hwf.2 pr h1
      · rw [h2]
        exact h.1
    simpa [h] using ⟨JsMap.nodup_keys_set _ _ _ hwf.1, hall⟩
  · simpa [h] using hwf

theorem regWF_unregisterOp {peerId : String} {reg : Registry}
    (hwf : RegWF reg) : RegWF (unregisterOp peerId reg).2 := by
  unfold unregisterOp
  by_cases h : peerId ≠ "" ∧ (JsMap.get peerId reg).isSome
  · have hall : ∀ pr ∈ JsMap.del peerId reg, pr.1 ≠ "" := by
      intro pr hpr
      exact hwf.2 pr (mem_del_of_mem hpr)
    simpa [h] using ⟨JsMap.nodup_keys_del _ _ hwf.1, hall⟩
  · simpa [h] using hwf

theorem regWF_heartbeatOp {peerId : String} {now : Nat} {reg : Registry}
    (hwf : RegWF reg) : RegWF (heartbeatOp peerId now reg).2 := by
  unfold heartbeatOp
  by_cases h : peerId = ""
  · simpa [h] using hwf
  · cases hg : JsMap.get peerId reg with
    | none => simpa [h, hg] using hwf
    | some u =>
      have hall : ∀ pr ∈ JsMap.set peerId ⟨u.username, now⟩ reg, pr.1 ≠ "" := by
        intro pr hpr
        rcases mem_set_of_mem hpr with h1 | h2
        · exact hwf.2 pr h1
        · rw [h2]
          exact h
      simpa [h, hg] using ⟨JsMap.nodup_keys_set _ _ _ hwf.1, hall⟩

theorem regWF_sweepTick {now : Nat} {reg : Registry} (hwf : RegWF reg) :
    RegWF (sweepTick now reg) := by
  refine ⟨nodup_keys_sweepTick hwf.1, ?_⟩
  intro pr hpr
  exact hwf.2 pr (mem_sweepTick_of_mem hpr)

/-! ### Observable histories of the registry

A history is the timestamped sequence of API requests served and sweep ticks
fired, in the order the single-threaded server processed them.  `run` folds
the server's handlers over the history, starting from the empty
`onlineUsers` map. -/

/-- One processed registry event. -/
inductive REvent where
  | register (peerId username : String)
  | unregister (peerId : String)
  | heartbeat (peerId : String)
  | sweep
  deriving Repr, DecidableEq

/-- Apply one timestamped event with the corresponding `server.js` handler. -/
def stepReg (reg : Registry) (te : Nat × REvent) : Registry :=
  match te.2 with
  | .register p u => (registerOp p u te.1 reg).2
  | .unregister p => (unregisterOp p reg).2
  | .heartbeat p => (heartbeatOp p te.1 reg).2
  | .sweep => sweepTick te.1 reg

/-- The registry after serving a history, starting from the empty map. -/
def runReg (tr : List (Nat × REvent)) : Registry :=
  tr.foldl stepReg []

theorem regWF_stepReg {reg : Registry} (te : Nat × REvent) (hwf : RegWF reg) :
    RegWF (stepReg reg te) := by
  obtain ⟨now, e⟩ := te
  cases e with
  | register p u => exact regWF_registerOp hwf
  | unregister p => exact regWF_unregisterOp hwf
  | heartbeat p => exact regWF_heartbeatOp hwf
  | sweep => exact regWF_sweepTick hwf

theorem regWF_foldl {reg : Registry} (tr : List (Nat × REvent))
    (hwf : RegWF reg) : RegWF (tr.foldl stepReg reg) := by
  induction tr generalizing reg with
  | nil => exact hwf
  | cons te rest ih => exact ih (regWF_stepReg te hwf)

theorem regWF_runReg (tr : List (Nat × REvent)) : RegWF (runReg tr) :=
  regWF_foldl tr regWF_nil

/-- One spec-side step of the per-peer presence status (the amended claim's
lifecycle for a single peer `p`, tracking only its last-seen time):
registration (with both fields nonempty) sets it, unregistration of a present
peer clears it, a heartbeat of a present peer refreshes it, and a sweep tick
clears it exactly when the peer is stale at that tick. -/
def presenceStep (p : String) (st : Option Nat) (te : Nat × REvent) :
    Option Nat :=
  match te.2 with
  | .register q u =>
      if q = p then (if q ≠ "" ∧ u ≠ "" then some te.1 else st) else st
  | .unregister q =>
      if q = p then (if q ≠ "" ∧ st.isSome then none else st) else st
  | .heartbeat q =>
      if q = p then (if q ≠ "" ∧ st.isSome then some te.1 else st) else st
  | .sweep =>
      match st with
      | some t => if te.1 - t > USER_TIMEOUT then none else some t
      | none => none

/-- Spec-side presence of peer `p` over a history: `some t` when the amended
claim says `p` is listed with last-seen time `t`, `none` otherwise. -/
def presence (p : String) (tr : List (Nat × REvent)) : Option Nat :=
  tr.foldl (presenceStep p) none

theorem get_stepReg_lastHeartbeat (p : String) {reg : Registry}
    (te : Nat × REvent) (hwf : RegWF reg) :
    (JsMap.get p (stepReg reg te)).map UserRecord.lastHeartbeat =
      presenceStep p ((JsMap.get p reg).map UserRecord.lastHeartbeat) te := by
  obtain ⟨now, e⟩ := te
  cases e with
  | register q u =>
    by_cases hq : q = p
    · subst hq
      by_cases hg : q ≠ "" ∧ u ≠ ""
      · simp [stepReg, registerOp, presenceStep, hg, JsMap.get_set_self]
      · simp [stepReg, registerOp, presenceStep, hg]
    · by_cases hg : q ≠ "" ∧ u ≠ ""
      · simp [stepReg, registerOp, presenceStep, hg, hq,
          JsMap.get_set_ne q p _ reg (Ne.symm (by simpa using hq))]
      · simp [stepReg, registerOp, presenceStep, hg, hq]
  | unregister q =>
    by_cases hq : q = p
    · subst hq
      by_cases hg : q ≠ "" ∧ (JsMap.get q reg).isSome
      · simp [stepReg, unregisterOp, presenceStep, hg, JsMap.get_del_self,
          Option.isSome_map]
      · have : ¬(q ≠ "" ∧ ((JsMap.get q reg).map UserRecord.lastHeartbeat).isSome) := by
          simpa [Option.isSome_map] using hg
        simp [stepReg, unregisterOp, presenceStep, hg, this]
    · by_cases hg : q ≠ "" ∧ (JsMap.get q reg).isSome
      · simp [stepReg, unregisterOp, presenceStep, hg, hq,
          JsMap.get_del_ne q p reg (Ne.symm (by simpa using hq))]
      · simp [stepReg, unregisterOp, presenceStep, hg, hq]
  | heartbeat q =>
    by_cases hq : q = p
    · subst hq
      by_cases he : q = ""
      · have : JsMap.get q reg = none := by
          rw [he]; exact get_empty_eq_none_of_wf hwf
        simp [stepReg, heartbeatOp, presenceStep, he, this]
      · cases hg : JsMap.get q reg with
        | none => simp [stepReg, heartbeatOp, presenceStep, he, hg]
        | some u =>
          simp [stepReg, heartbeatOp, presenceStep, he, hg,
            JsMap.get_set_self]
    · by_cases he : q = ""
      · simp [stepReg, heartbeatOp, presenceStep, he, hq]
      · cases hg : JsMap.get q reg with
        | none => simp [stepReg, heartbeatOp, presenceStep, he, hg, hq]
        | some u =>
          simp [stepReg, heartbeatOp, presenceStep, he, hg, hq,
            JsMap.get_set_ne q p _ reg (Ne.symm (by simpa using hq))]
  | sweep =>
    rw [show stepReg reg (now, REvent.sweep) = sweepTick now reg from rfl,
      get_sweepTick now p reg hwf.1]
    cases hg : JsMap.get p reg with
    | none => simp [presenceStep, hg]
    | some u =>
      by_cases hs : now - u.lastHeartbeat > USER_TIMEOUT
      · simp [presenceStep, hg, hs]
      · simp [presenceStep, hg, hs]

theorem get_foldl_lastHeartbeat (p : String) (tr : List (Nat × REvent))
    {reg : Registry} {st : Option Nat} (hwf : RegWF reg)
    (hst : (JsMap.get p reg).map UserRecord.lastHeartbeat = st) :
    (JsMap.get p (tr.foldl stepReg reg)).map UserRecord.lastHeartbeat =
      tr.foldl (presenceStep p) st := by
  induction tr generalizing reg st with
  | nil => simpa using hst
  | cons te rest ih =>
    simp only [List.foldl_cons]
    exact ih (regWF_stepReg te hwf)
      (by rw [get_stepReg_lastHeartbeat p te hwf, hst])

/-- The registry binding of `p` after a history, as its last-seen time,
equals the spec-side presence status. -/
theorem get_runReg_eq_presence (p : String) (tr : List (Nat × REvent)) :
    (JsMap.get p (runReg tr)).map UserRecord.lastHeartbeat = presence p tr :=
  get_foldl_lastHeartbeat p tr regWF_nil (by simp [JsMap.get])

/-- Membership of a peer id in the `/api/users` response is membership in the
`onlineUsers` map. -/
theorem mem_listPeers_iff_get (p : String) (reg : Registry) :
    (∃ n, (p, n) ∈ listPeers reg) ↔ (JsMap.get p reg).isSome := by
  rw [← JsMap.mem_keys_iff_get]
  induction reg with
  | nil => simp [listPeers, JsMap.keys]
  | cons pr rest ih =>
    obtain ⟨q, w⟩ := pr
    by_cases hq : q = p
    · subst hq
      constructor
      · intro _
        simp [JsMap.keys]
      · intro _
        exact ⟨w.username, by simp [listPeers]⟩
    · constructor
      · intro ⟨n, hn⟩
        rcases (by simpa [listPeers] using hn :
          (p = q ∧ n = w.username) ∨ (p, n) ∈ listPeers rest) with h1 | h2
        · exact absurd h1.1.symm hq
        · simp only [JsMap.keys, List.mem_cons]
          exact Or.inr (ih.1 ⟨n, h2⟩)
      · intro hmem
        rcases (by simpa [JsMap.keys] using hmem :
          p = q ∨ p ∈ JsMap.keys rest) with h1 | h2
        · exact absurd h1.symm hq
        · obtain ⟨n, hn⟩ := ih.2 h2
          exact ⟨n, by simp [listPeers] at hn ⊢; exact Or.inr hn⟩

/-! ## Registry claims -/

/-- C1, counterexample.  The claim says a peer appears in `GET /api/users`
only if `now − lastSeenAt ≤ USER_TIMEOUT` at every observable time.  In the
history below, "p" registers at time 0 and sweep ticks fire at 10000, 20000
and 30000 (where `30000 - 0 > 30000` is false, so "p" survives); observed at
`now = 34000` the peer is still listed although `34000 − 0 > USER_TIMEOUT`. -/
theorem listPeers_stale_peer_listed_counterexample :
    ("p", "alice") ∈ listPeers (runReg
      [(0, .register "p" "alice"), (10000, .sweep), (20000, .sweep),
        (30000, .sweep)]) ∧
    (JsMap.get "p" (runReg
      [(0, .register "p" "alice"), (10000, .sweep), (20000, .sweep),
        (30000, .sweep)])).map UserRecord.lastHeartbeat = some 0 ∧
    34000 - 0 > USER_TIMEOUT := by
  decide

/-- C1, amended.  For every history of requests and sweep ticks and every
peer `p`: `p` appears in `GET /api/users` iff it registered (with nonempty
fields), was not explicitly unregistered since, and was not removed by a
sweep tick — a tick at time `s` removing it exactly when `s − lastSeenAt >
USER_TIMEOUT` at that tick.  Staleness is therefore only enforced at sweep
instants (so a stale peer stays listed for up to a sweep interval), which is
the `presence` lifecycle on the spec side. -/
theorem listPeers_iff_presence (p : String) (tr : List (Nat × REvent)) :
    (∃ n, (p, n) ∈ listPeers (runReg tr)) ↔ (presence p tr).isSome := by
  rw [mem_listPeers_iff_get, ← get_runReg_eq_presence p tr]
  simp

/-- C3.  A sweep tick removes a record iff it is stale at that tick:
a record with `now − lastSeenAt > USER_TIMEOUT` is removed (and stays gone at
the following tick, so it is removed exactly once), while a record with
`now − lastSeenAt ≤ USER_TIMEOUT` is kept verbatim. -/
theorem sweepTick_removes_iff_stale (reg : Registry) (now : Nat) (p : String)
    (u : UserRecord) (hwf : RegWF reg) (hget : JsMap.get p reg = some u) :
    (now - u.lastHeartbeat > USER_TIMEOUT →
      JsMap.get p (sweepTick now reg) = none ∧
      JsMap.get p (sweepTick now (sweepTick now reg)) = none) ∧
    (now - u.lastHeartbeat ≤ USER_TIMEOUT →
      JsMap.get p (sweepTick now reg) = some u) := by
  have h1 := get_sweepTick now p reg hwf.1
  rw [hget] at h1
  constructor
  · intro hs
    have hnone : JsMap.get p (sweepTick now reg) = none := by
      rw [h1]
      simp [hs]
    refine ⟨hnone, ?_⟩
    have h2 := get_sweepTick now p (sweepTick now reg)
      (regWF_sweepTick hwf).1
    rw [hnone] at h2
    simpa using h2
  · intro hs
    rw [h1]
    simp [Nat.not_lt.2 hs]

/-- Witness for C3 at a concrete registry: "a" (last seen at 0) is stale at
`now = 35000` and removed; "b" (last seen at 20000) is fresh and kept. -/
theorem sweepTick_removes_iff_stale_witness :
    ((35000 - (0 : Nat) > USER_TIMEOUT →
      JsMap.get "a" (sweepTick 35000
        [("a", ⟨"u", 0⟩), ("b", ⟨"v", 20000⟩)]) = none ∧
      JsMap.get "a" (sweepTick 35000 (sweepTick 35000
        [("a", ⟨"u", 0⟩), ("b", ⟨"v", 20000⟩)])) = none) ∧
    (35000 - (0 : Nat) ≤ USER_TIMEOUT →
      JsMap.get "a" (sweepTick 35000
        [("a", ⟨"u", 0⟩), ("b", ⟨"v", 20000⟩)]) = some ⟨"u", 0⟩)) ∧
    ((35000 - (20000 : Nat) > USER_TIMEOUT →
      JsMap.get "b" (sweepTick 35000
        [("a", ⟨"u", 0⟩), ("b", ⟨"v", 20000⟩)]) = none ∧
      JsMap.get "b" (sweepTick 35000 (sweepTick 35000
        [("a", ⟨"u", 0⟩), ("b", ⟨"v", 20000⟩)])) = none) ∧
    (35000 - (20000 : Nat) ≤ USER_TIMEOUT →
      JsMap.get "b" (sweepTick 35000
        [("a", ⟨"u", 0⟩), ("b", ⟨"v", 20000⟩)]) = some ⟨"v", 20000⟩)) :=
  ⟨sweepTick_removes_iff_stale
      [("a", ⟨"u", 0⟩), ("b", ⟨"v", 20000⟩)] 35000 "a" ⟨"u", 0⟩
      (by decide) (by decide),
    sweepTick_removes_iff_stale
      [("a", ⟨"u", 0⟩), ("b", ⟨"v", 20000⟩)] 35000 "b" ⟨"v", 20000⟩
      (by decide) (by decide)⟩

/-- C5, counterexample.  The claim says `POST /api/unregister` answers
`success: true` even when the peer is already absent; in fact the handler's
`else` branch answers `success: false` (HTTP 200) and leaves the map
unchanged. -/
theorem unregisterOp_absent_false_counterexample :
    unregisterOp "ghost" [("a", ⟨"u", 0⟩)] =
      ((200, false), [("a", ⟨"u", 0⟩)]) := by
  decide

/-- C5, amended.  `POST /api/unregister` answers HTTP 200 with
`success: true` iff the peer is present (and then removes it, leaving other
records untouched); when the peer is already absent it answers
`success: false` — not `true` — and leaves the registry unchanged, so a
repeated unregister is an idempotent no-op reporting `false`. -/
theorem unregisterOp_success_iff_present (reg : Registry) (p : String)
    (hwf : RegWF reg) :
    ((unregisterOp p reg).1.2 = true ↔ (JsMap.get p reg).isSome) ∧
    (unregisterOp p reg).1.1 = 200 ∧
    ((JsMap.get p reg).isSome →
      JsMap.get p (unregisterOp p reg).2 = none ∧
      ∀ q, q ≠ p → JsMap.get q (unregisterOp p reg).2 = JsMap.get q reg) ∧
    (JsMap.get p reg = none → unregisterOp p reg = ((200, false), reg)) := by
  by_cases he : p = ""
  · subst he
    have hnone : JsMap.get "" reg = none := get_empty_eq_none_of_wf hwf
    refine ⟨by simp [unregisterOp, hnone], by simp [unregisterOp, hnone],
      by simp [hnone], fun _ => by simp [unregisterOp, hnone]⟩
  · cases hg : JsMap.get p reg with
    | none =>
      refine ⟨by simp [unregisterOp, hg], by simp [unregisterOp, hg],
        by simp [hg], fun _ => by simp [unregisterOp, hg]⟩
    | some u =>
      have hcond : p ≠ "" ∧ (JsMap.get p reg).isSome := ⟨he, by simp [hg]⟩
      refine ⟨by simp [unregisterOp, hcond, hg], by simp [unregisterOp, hcond],
        fun _ => ⟨?_, ?_⟩, fun hn => by simp [hg] at hn⟩
      · simp [unregisterOp, hcond, JsMap.get_del_self]
      · intro q hq
        simp [unregisterOp, hcond, JsMap.get_del_ne p q reg hq]

/-- Witness for C5 (amended) at a concrete registry holding "a". -/
theorem unregisterOp_success_iff_present_witness :
    ((unregisterOp "a" ([("a", ⟨"u", 0⟩), ("b", ⟨"v", 5⟩)] : Registry)).1.2 =
        true ↔
      (JsMap.get "a" ([("a", ⟨"u", 0⟩), ("b", ⟨"v", 5⟩)] : Registry)).isSome) ∧
    (unregisterOp "a" ([("a", ⟨"u", 0⟩), ("b", ⟨"v", 5⟩)] : Registry)).1.1 =
      200 ∧
    ((JsMap.get "a" ([("a", ⟨"u", 0⟩), ("b", ⟨"v", 5⟩)] : Registry)).isSome →
      JsMap.get "a" (unregisterOp "a"
        ([("a", ⟨"u", 0⟩), ("b", ⟨"v", 5⟩)] : Registry)).2 = none ∧
      ∀ q, q ≠ "a" →
        JsMap.get q (unregisterOp "a"
          ([("a", ⟨"u", 0⟩), ("b", ⟨"v", 5⟩)] : Registry)).2 =
          JsMap.get q ([("a", ⟨"u", 0⟩), ("b", ⟨"v", 5⟩)] : Registry)) ∧
    (JsMap.get "a" ([("a", ⟨"u", 0⟩), ("b", ⟨"v", 5⟩)] : Registry) = none →
      unregisterOp "a" ([("a", ⟨"u", 0⟩), ("b", ⟨"v", 5⟩)] : Registry) =
        ((200, false), ([("a", ⟨"u", 0⟩), ("b", ⟨"v", 5⟩)] : Registry))) :=
  unregisterOp_success_iff_present [("a", ⟨"u", 0⟩), ("b", ⟨"v", 5⟩)] "a"
    (by decide)

/-- C6.  `POST /api/heartbeat` answers `success: true` iff the record exists;
when it does, the record's `lastHeartbeat` becomes `now` (username and every
other record unchanged); when it does not, the handler answers 404 with
`success: false` and leaves the registry unchanged. -/
theorem heartbeatOp_success_iff_present (reg : Registry) (p : String)
    (now : Nat) (hwf : RegWF reg) :
    ((heartbeatOp p now reg).1.2 = true ↔ (JsMap.get p reg).isSome) ∧
    (∀ u, JsMap.get p reg = some u →
      heartbeatOp p now reg =
        ((200, true), JsMap.set p ⟨u.username, now⟩ reg) ∧
      JsMap.get p (heartbeatOp p now reg).2 = some ⟨u.username, now⟩ ∧
      ∀ q, q ≠ p → JsMap.get q (heartbeatOp p now reg).2 = JsMap.get q reg) ∧
    (JsMap.get p reg = none → heartbeatOp p now reg = ((404, false), reg)) := by
  by_cases he : p = ""
  · subst he
    have hnone : JsMap.get "" reg = none := get_empty_eq_none_of_wf hwf
    refine ⟨by simp [heartbeatOp, hnone], ?_, fun _ => by simp [heartbeatOp]⟩
    intro u hu
    rw [hu] at hnone
    cases hnone
  · cases hg : JsMap.get p reg with
    | none =>
      refine ⟨by simp [heartbeatOp, he, hg], ?_,
        fun _ => by simp [heartbeatOp, he, hg]⟩
      intro u hu
      simp [hg] at hu
    | some u =>
      refine ⟨by simp [heartbeatOp, he, hg], ?_, fun hn => by
        simp [hg] at hn⟩
      intro u' hu'
      have huu : u' = u := (Option.some.inj hu').symm
      subst huu
      refine ⟨by simp [heartbeatOp, he, hg], ?_, ?_⟩
      · simp [heartbeatOp, he, hg, JsMap.get_set_self]
      · intro q hq
        simp [heartbeatOp, he, hg, JsMap.get_set_ne p q _ reg hq]

/-- Witness for C6 at a concrete registry: heartbeat of the present "a"
succeeds and refreshes it; the absent-record case is available via the same
theorem's third conjunct at this instance. -/
theorem heartbeatOp_success_iff_present_witness :
    ((heartbeatOp "a" 7000 ([("a", ⟨"u", 0⟩)] : Registry)).1.2 = true ↔
      (JsMap.get "a" ([("a", ⟨"u", 0⟩)] : Registry)).isSome) ∧
    (∀ u, JsMap.get "a" ([("a", ⟨"u", 0⟩)] : Registry) = some u →
      heartbeatOp "a" 7000 ([("a", ⟨"u", 0⟩)] : Registry) =
        ((200, true),
          JsMap.set "a" ⟨u.username, 7000⟩ ([("a", ⟨"u", 0⟩)] : Registry)) ∧
      JsMap.get "a" (heartbeatOp "a" 7000 ([("a", ⟨"u", 0⟩)] : Registry)).2 =
        some ⟨u.username, 7000⟩ ∧
      ∀ q, q ≠ "a" →
        JsMap.get q (heartbeatOp "a" 7000 ([("a", ⟨"u", 0⟩)] : Registry)).2 =
          JsMap.get q ([("a", ⟨"u", 0⟩)] : Registry)) ∧
    (JsMap.get "a" ([("a", ⟨"u", 0⟩)] : Registry) = none →
      heartbeatOp "a" 7000 ([("a", ⟨"u", 0⟩)] : Registry) =
        ((404, false), ([("a", ⟨"u", 0⟩)] : Registry))) :=
  heartbeatOp_success_iff_present [("a", ⟨"u", 0⟩)] "a" 7000 (by decide)

/-! ## Connection orchestrator: outbound session lifecycle
(`ConnectionManager.connectToPeer` and the handlers it installs)

`connectToPeer` creates a `DataConnection` object (an *attempt*, identified
here by a fresh id), arms a 10s timeout, and installs `open`/`data`/`close`/
`error` handlers.  The browser event loop runs each handler to completion;
`fireOpen`/`fireTimeout`/`fireClose`/`fireData` below are those handler
bodies, invoked when the black-box transport delivers the event.  The
`connections` map is only written by the handlers: `setConnection` on `open`,
`removeConnection` on `close`.  Emitted notifications are logged:
`estEvents` for the session-established notification on `open` (the
`onConnected` callback and connection-change fan-out), `removedEvents` for
`notifyPlayerRemovedCallbacks`, `dataEvents` for `notifyDataCallbacks`. -/

/-- One `DataConnection` object created by `peer.connect`. -/
structure AttemptSt where
  pid : String
  isOpen : Bool
  closeRequested : Bool
  timeoutActive : Bool
  deriving Repr, DecidableEq

/-- Orchestrator state relevant to the outbound session lifecycle, plus the
log of notifications emitted to subscribers. -/
structure CMState where
  peerAlive : Bool
  connections : List (String × Nat)
  attempts : List (Nat × AttemptSt)
  nextId : Nat
  estEvents : List String
  removedEvents : List String
  dataEvents : List (String × String)
  deriving Repr, DecidableEq

/-- `connectToPeer(peerId)`: bail out if the `Peer` handle is null or
destroyed; no-op if `connections.has(peerId)` (note the map is only populated
on `open`); otherwise create a fresh connection attempt with its 10s timeout
armed.  No notification is emitted and the map is untouched. -/
def connectToPeer (p : String) (s : CMState) : CMState :=
  if ¬s.peerAlive then s
  else if (JsMap.get p s.connections).isSome then s
  else
    { s with
      attempts := s.attempts ++ [(s.nextId, ⟨p, false, false, true⟩)],
      nextId := s.nextId + 1 }

/-- The `conn.on('open')` handler for attempt `cid`, run when the transport
reports the channel open (at most once, never after close): `clearTimeout`,
`setConnection(peerId, conn)` (map write plus connection-change fan-out) and
the `onConnected` callback — logged as one session-established emission. -/
def fireOpen (cid : Nat) (s : CMState) : CMState :=
  match JsMap.get cid s.attempts with
  | some a =>
      if a.isOpen ∨ a.closeRequested then s
      else
        { s with
          attempts :=
            JsMap.set cid { a with isOpen := true, timeoutActive := false }
              s.attempts,
          connections := JsMap.set a.pid cid s.connections,
          estEvents := s.estEvents ++ [a.pid] }
  | none => s

/-- The `setTimeout` callback armed by `connectToPeer`, run 10s later unless
`clearTimeout` disarmed it: `if (!conn.open) conn.close()`. -/
def fireTimeout (cid : Nat) (s : CMState) : CMState :=
  match JsMap.get cid s.attempts with
  | some a =>
      if a.timeoutActive then
        if ¬a.isOpen then
          { s with
            attempts :=
              JsMap.set cid
                { a with timeoutActive := false, closeRequested := true }
                s.attempts }
        else
          { s with
            attempts :=
              JsMap.set cid { a with timeoutActive := false } s.attempts }
      else s
  | none => s

/-- The `conn.on('close')` handler, run when the channel closes (in
particular after the timeout's `conn.close()`): `removeConnection(peerId)`
and `notifyPlayerRemovedCallbacks(peerId)`. -/
def fireClose (cid : Nat) (s : CMState) : CMState :=
  match JsMap.get cid s.attempts with
  | some a =>
      { s with
        connections := JsMap.del a.pid s.connections,
        removedEvents := s.removedEvents ++ [a.pid] }
  | none => s

/-- The `conn.on('data')` handler: `notifyDataCallbacks(data, peerId)`. -/
def fireData (cid : Nat) (payload : String) (s : CMState) : CMState :=
  match JsMap.get cid s.attempts with
  | some a => { s with dataEvents := s.dataEvents ++ [(a.pid, payload)] }
  | none => s

/-- Attempt ids in use are below `nextId`, so fresh ids are unbound. -/
def attemptsBounded (s : CMState) : Prop :=
  ∀ pr ∈ s.attempts, pr.1 < s.nextId

theorem get_attempts_fresh {s : CMState} (hb : attemptsBounded s)
    {j : Nat} (hj : s.nextId ≤ j) : JsMap.get j s.attempts = none := by
  apply JsMap.get_eq_none_of_not_mem_keys
  intro hmem
  obtain ⟨v, hv⟩ := JsMap.exists_of_mem_keys hmem
  exact absurd (hb (j, v) hv) (by omega)

/-! ### C2: concurrent `openSession` dedup -/

/-- C2, counterexample.  The claim says two `connectToPeer("A")` calls, the
second issued before the first connection opens, yield exactly one
session-established notification.  From a fresh orchestrator, both calls
pass the `connections.has` check (the map is only written on `open`), so
after both channels open the map holds one entry but TWO session-established
notifications were emitted. -/
theorem connectToPeer_race_two_events_counterexample :
    (fireOpen 1 (fireOpen 0 (connectToPeer "A" (connectToPeer "A"
        ⟨true, [], [], 0, [], [], []⟩)))).estEvents = ["A", "A"] ∧
    (fireOpen 1 (fireOpen 0 (connectToPeer "A" (connectToPeer "A"
        ⟨true, [], [], 0, [], [], []⟩)))).connections = [("A", 1)] := by
  decide

/-- C2, amended.  A duplicate `connectToPeer(P)` is a no-op only when a
Session for `P` is already present in the map — which happens only once a
connection to `P` has reached `open`.  If the second call is issued before
the first connection opens, both calls create connection attempts; after
both reach `open` the map holds exactly one Session entry for `P` (the
second overwrites the first) but two session-established notifications have
been emitted for `P`. -/
theorem connectToPeer_dedup_and_race (s : CMState) (p : String)
    (halive : s.peerAlive = true)
    (habs : JsMap.get p s.connections = none)
    (hb : attemptsBounded s) :
    (∀ t : CMState, (JsMap.get p t.connections).isSome →
      connectToPeer p t = t) ∧
    JsMap.get p (fireOpen (s.nextId + 1) (fireOpen s.nextId
      (connectToPeer p (connectToPeer p s)))).connections =
      some (s.nextId + 1) ∧
    (fireOpen (s.nextId + 1) (fireOpen s.nextId
      (connectToPeer p (connectToPeer p s)))).estEvents =
      s.estEvents ++ [p, p] := by
  have hdedup : ∀ t : CMState, (JsMap.get p t.connections).isSome →
      connectToPeer p t = t := by
    intro t ht
    unfold connectToPeer
    by_cases hal : t.peerAlive
    · simp [hal, ht]
    · simp [hal]
  have hs1 : connectToPeer p s =
      { s with
        attempts := s.attempts ++ [(s.nextId, ⟨p, false, false, true⟩)],
        nextId := s.nextId + 1 } := by
    unfold connectToPeer
    simp [halive, habs]
  have hs2 : connectToPeer p (connectToPeer p s) =
      { s with
        attempts := s.attempts ++ [(s.nextId, ⟨p, false, false, true⟩),
          (s.nextId + 1, ⟨p, false, false, true⟩)],
        nextId := s.nextId + 2 } := by
    rw [hs1]
    unfold connectToPeer
    simp only [halive, habs]
    simp [List.append_assoc]
  have hget0 : JsMap.get s.nextId (s.attempts ++
      [(s.nextId, ⟨p, false, false, true⟩),
        (s.nextId + 1, ⟨p, false, false, true⟩)]) =
      some ⟨p, false, false, true⟩ := by
    rw [JsMap.get_append, get_attempts_fresh hb (Nat.le_refl _)]
    simp [JsMap.get]
  have hs3 : fireOpen s.nextId (connectToPeer p (connectToPeer p s)) =
      { s with
        attempts :=
          JsMap.set s.nextId ⟨p, true, false, false⟩
            (s.attempts ++ [(s.nextId, ⟨p, false, false, true⟩),
              (s.nextId + 1, ⟨p, false, false, true⟩)]),
        connections := JsMap.set p s.nextId s.connections,
        nextId := s.nextId + 2,
        estEvents := s.estEvents ++ [p] } := by
    rw [hs2]
    unfold fireOpen
    simp [hget0]
  have hget1 : JsMap.get (s.nextId + 1)
      (JsMap.set s.nextId ⟨p, true, false, false⟩
        (s.attempts ++ [(s.nextId, ⟨p, false, false, true⟩),
          (s.nextId + 1, ⟨p, false, false, true⟩)])) =
      some ⟨p, false, false, true⟩ := by
    rw [JsMap.get_set_ne _ _ _ _ (by omega), JsMap.get_append,
      get_attempts_fresh hb (by omega)]
    simp [JsMap.get]
  have hs4 : fireOpen (s.nextId + 1) (fireOpen s.nextId
      (connectToPeer p (connectToPeer p s))) =
      { s with
        attempts :=
          JsMap.set (s.nextId + 1) ⟨p, true, false, false⟩
            (JsMap.set s.nextId ⟨p, true, false, false⟩
              (s.attempts ++ [(s.nextId, ⟨p, false, false, true⟩),
                (s.nextId + 1, ⟨p, false, false, true⟩)])),
        connections := JsMap.set p (s.nextId + 1)
          (JsMap.set p s.nextId s.connections),
        nextId := s.nextId + 2,
        estEvents := (s.estEvents ++ [p]) ++ [p] } := by
    rw [hs3]
    unfold fireOpen
    simp [hget1]
  refine ⟨hdedup, ?_, ?_⟩
  · rw [hs4]
    simpa using JsMap.get_set_self p (s.nextId + 1)
      (JsMap.set p s.nextId s.connections)
  · rw [hs4]
    simp

/-- Witness for C2 (amended) from a fresh orchestrator state. -/
theorem connectToPeer_dedup_and_race_witness :
    (∀ t : CMState, (JsMap.get "A" t.connections).isSome →
      connectToPeer "A" t = t) ∧
    JsMap.get "A" (fireOpen 1 (fireOpen 0
      (connectToPeer "A" (connectToPeer "A"
        ⟨true, [], [], 0, [], [], []⟩)))).connections = some 1 ∧
    (fireOpen 1 (fireOpen 0 (connectToPeer "A" (connectToPeer "A"
      ⟨true, [], [], 0, [], [], []⟩)))).estEvents = [] ++ ["A", "A"] := by
  have h := connectToPeer_dedup_and_race ⟨true, [], [], 0, [], [], []⟩ "A"
    (by decide) (by decide) (by intro pr hpr; simp at hpr)
  simpa using h

/-! ### C7: session-open timeout -/

/-- C7, counterexample.  The claim says that after the session-open timeout
fires, no further events for `P` are emitted from that attempt.  In fact the
timeout's `conn.close()` triggers the attempt's `close` handler, which calls
`notifyPlayerRemovedCallbacks(P)`: a peer-removed event for `P` IS emitted. -/
theorem session_timeout_emits_removed_counterexample :
    (fireClose 0 (fireTimeout 0 (connectToPeer "A"
      ⟨true, [], [], 0, [], [], []⟩))).removedEvents = ["A"] ∧
    JsMap.get "A" (fireClose 0 (fireTimeout 0 (connectToPeer "A"
      ⟨true, [], [], 0, [], [], []⟩))).connections = none := by
  decide

/-- C7, amended.  If the channel of a `connectToPeer(P)` attempt never
reaches `open` and the 10s timeout fires, the forced `conn.close()` and the
subsequent `close` handler leave no Session for `P` in the map and emit no
session-established and no inbound-data event from that attempt — but they
DO emit exactly one peer-removed notification for `P`. -/
theorem session_timeout_discards_attempt (s : CMState) (p : String)
    (halive : s.peerAlive = true)
    (habs : JsMap.get p s.connections = none)
    (hb : attemptsBounded s) :
    JsMap.get p (fireClose s.nextId (fireTimeout s.nextId
      (connectToPeer p s))).connections = none ∧
    (fireClose s.nextId (fireTimeout s.nextId
      (connectToPeer p s))).estEvents = s.estEvents ∧
    (fireClose s.nextId (fireTimeout s.nextId
      (connectToPeer p s))).dataEvents = s.dataEvents ∧
    (fireClose s.nextId (fireTimeout s.nextId
      (connectToPeer p s))).removedEvents = s.removedEvents ++ [p] := by
  have hs1 : connectToPeer p s =
      { s with
        attempts := s.attempts ++ [(s.nextId, ⟨p, false, false, true⟩)],
        nextId := s.nextId + 1 } := by
    unfold connectToPeer
    simp [halive, habs]
  have hget0 : JsMap.get s.nextId
      (s.attempts ++ [(s.nextId, ⟨p, false, false, true⟩)]) =
      some ⟨p, false, false, true⟩ := by
    rw [JsMap.get_append, get_attempts_fresh hb (Nat.le_refl _)]
    simp [JsMap.get]
  have hs2 : fireTimeout s.nextId (connectToPeer p s) =
      { s with
        attempts :=
          JsMap.set s.nextId ⟨p, false, true, false⟩
            (s.attempts ++ [(s.nextId, ⟨p, false, false, true⟩)]),
        nextId := s.nextId + 1 } := by
    rw [hs1]
    unfold fireTimeout
    simp [hget0]
  have hget1 : JsMap.get s.nextId
      (JsMap.set s.nextId ⟨p, false, true, false⟩
        (s.attempts ++ [(s.nextId, ⟨p, false, false, true⟩)])) =
      some ⟨p, false, true, false⟩ := JsMap.get_set_self _ _ _
  have hs3 : fireClose s.nextId (fireTimeout s.nextId (connectToPeer p s)) =
      { s with
        attempts :=
          JsMap.set s.nextId ⟨p, false, true, false⟩
            (s.attempts ++ [(s.nextId, ⟨p, false, false, true⟩)]),
        nextId := s.nextId + 1,
        connections := JsMap.del p s.connections,
        removedEvents := s.removedEvents ++ [p] } := by
    rw [hs2]
    unfold fireClose
    simp [hget1]
  rw [hs3]
  exact ⟨JsMap.get_del_self p s.connections, rfl, rfl, rfl⟩

/-- Witness for C7 (amended) from a fresh orchestrator state. -/
theorem session_timeout_discards_attempt_witness :
    JsMap.get "A" (fireClose 0 (fireTimeout 0 (connectToPeer "A"
      ⟨true, [], [], 0, [], [], []⟩))).connections = none ∧
    (fireClose 0 (fireTimeout 0 (connectToPeer "A"
      ⟨true, [], [], 0, [], [], []⟩))).estEvents = [] ∧
    (fireClose 0 (fireTimeout 0 (connectToPeer "A"
      ⟨true, [], [], 0, [], [], []⟩))).dataEvents = [] ∧
    (fireClose 0 (fireTimeout 0 (connectToPeer "A"
      ⟨true, [], [], 0, [], [], []⟩))).removedEvents = [] ++ ["A"] := by
  have h := session_timeout_discards_attempt ⟨true, [], [], 0, [], [], []⟩ "A"
    (by decide) (by decide) (by intro pr hpr; simp at hpr)
  simpa using h

/-! ## Broadcast (`ConnectionManager.broadcast`) -/

/-- A `DataConnection` as `broadcast`/`destroy` see it: its `open` flag and
whether its `send`/`close` would throw. -/
structure ConnObj where
  isOpen : Bool
  sendFails : Bool
  closeFails : Bool
  deriving Repr, DecidableEq

/-- `conn.send(message)`: throws exactly when the connection is failing. -/
def sendOnce (c : ConnObj) : Except Unit Unit :=
  if c.sendFails then Except.error () else Except.ok ()

/-- `broadcast(message)`: `connections.forEach` in map order; for every open
connection, attempt `conn.send` inside `try { } catch { log }` — a throwing
send is logged and iteration continues; closed connections are skipped.
Returns (attempted recipients, logged failures); the function is total, so
no aggregate error reaches the caller. -/
def broadcast : List (String × ConnObj) → List String × List String
  | [] => ([], [])
  | (p, c) :: rest =>
      let r := broadcast rest
      if c.isOpen then
        match sendOnce c with
        | Except.ok _ => (p :: r.1, r.2)
        | Except.error _ => (p :: r.1, p :: r.2)
      else r

/-- C8.  `broadcast` attempts delivery to exactly the open connections —
independently of which sends throw, so one failing recipient never prevents
the attempts to the others — logs exactly the open-and-failing ones, and
returns normally (no aggregate error). -/
theorem broadcast_attempts_iff_open (conns : List (String × ConnObj)) :
    (broadcast conns).1 =
      (conns.filter (fun pc => pc.2.isOpen)).map Prod.fst ∧
    (broadcast conns).2 =
      (conns.filter (fun pc => pc.2.isOpen && pc.2.sendFails)).map Prod.fst ∧
    ∀ p, p ∈ (broadcast conns).1 ↔ ∃ c, (p, c) ∈ conns ∧ c.isOpen = true := by
  have key : ∀ l : List (String × ConnObj),
      (broadcast l).1 = (l.filter (fun pc => pc.2.isOpen)).map Prod.fst ∧
      (broadcast l).2 =
        (l.filter (fun pc => pc.2.isOpen && pc.2.sendFails)).map Prod.fst := by
    intro l
    induction l with
    | nil => exact ⟨rfl, rfl⟩
    | cons pc rest ih =>
      obtain ⟨p, c⟩ := pc
      by_cases ho : c.isOpen
      · by_cases hf : c.sendFails
        · simpa [broadcast, sendOnce, ho, hf] using ih
        · simpa [broadcast, sendOnce, ho, hf] using ih
      · simpa [broadcast, sendOnce, ho] using ih
  refine ⟨(key conns).1, (key conns).2, ?_⟩
  intro p
  rw [(key conns).1]
  constructor
  · intro hp
    obtain ⟨pc, hpc, hfst⟩ := List.mem_map.1 hp
    obtain ⟨hmem, hopen⟩ := List.mem_filter.1 hpc
    exact ⟨pc.2, by rw [← hfst]; simpa using hmem, by simpa using hopen⟩
  · intro ⟨c, hmem, hopen⟩
    exact List.mem_map.2 ⟨(p, c), List.mem_filter.2 ⟨hmem, by simpa using hopen⟩, rfl⟩

/-! ## Orchestrator whole-state model
(`ConnectionManager` fields touched by `destroy`/`startHeartbeat`) -/

/-- The `ConnectionManager` instance state: the `Peer` handle (modelled as
whether it is set), identity and registry endpoint, the heartbeat
`setInterval` handle together with the set of currently installed interval
timers, both connection maps, and the six subscriber callback sets
(callbacks modelled by tokens). -/
structure MgrState where
  peer : Bool
  peerId : String
  apiServerUrl : String
  heartbeatInterval : Option Nat
  connections : List (String × ConnObj)
  voiceCalls : List (String × ConnObj)
  localStream : Bool
  connectionChangeCallbacks : List Nat
  peerIdChangeCallbacks : List Nat
  dataCallbacks : List Nat
  playerRemovedCallbacks : List Nat
  callCallbacks : List Nat
  remoteStreamCallbacks : List Nat
  intervalTimers : List Nat
  nextTimer : Nat
  deriving Repr, DecidableEq

/-- `stopHeartbeat()`: if a heartbeat interval handle is held,
`clearInterval` it and reset the handle to `null`. -/
def stopHeartbeat (s : MgrState) : MgrState :=
  match s.heartbeatInterval with
  | some tid =>
      { s with
        intervalTimers := s.intervalTimers.filter (fun t => t ≠ tid),
        heartbeatInterval := none }
  | none => s

/-- `startHeartbeat(intervalMs)`: `stopHeartbeat()` first, then install a
fresh `setInterval` timer and hold its handle.  (The immediate
`sendHeartbeat()` has no modelled state effect.) -/
def startHeartbeat (s : MgrState) : MgrState :=
  let s1 := stopHeartbeat s
  { s1 with
    heartbeatInterval := some s1.nextTimer,
    intervalTimers := s1.intervalTimers ++ [s1.nextTimer],
    nextTimer := s1.nextTimer + 1 }

/-- `closeAllConnections()`: `conn.close()` on each entry inside
`try { } catch { }` (errors swallowed), then `clearConnections()`. -/
def closeAllConnections (s : MgrState) : MgrState :=
  { s with connections := [] }

/-- `destroy()`: `stopHeartbeat()`, `closeAllConnections()`, destroy and
null the `Peer` handle (inside `try`/`catch`), reset `peerId` and
`apiServerUrl`, and clear the connection-change, peer-id-change, data and
player-removed callback sets.  The voice-call map, the call and
remote-stream callback sets and the local stream are not touched by the
method body. -/
def destroy (s : MgrState) : MgrState :=
  let s1 := closeAllConnections (stopHeartbeat s)
  { s1 with
    peer := false,
    peerId := "",
    apiServerUrl := "",
    connectionChangeCallbacks := [],
    peerIdChangeCallbacks := [],
    dataCallbacks := [],
    playerRemovedCallbacks := [] }

/-- C4, counterexample.  The claim says `destroy()` closes and removes every
VoiceCall and empties every subscriber callback set.  On a state with one
voice call and subscribed call/remote-stream callbacks, `destroy` leaves the
`voiceCalls` map and both voice callback sets exactly as they were. -/
theorem destroy_leaves_voice_counterexample :
    (destroy
      { peer := true, peerId := "me", apiServerUrl := "srv",
        heartbeatInterval := some 5,
        connections := [("x", ⟨true, false, false⟩)],
        voiceCalls := [("v", ⟨true, false, false⟩)],
        localStream := true,
        connectionChangeCallbacks := [3], peerIdChangeCallbacks := [4],
        dataCallbacks := [6], playerRemovedCallbacks := [7],
        callCallbacks := [1], remoteStreamCallbacks := [2],
        intervalTimers := [5], nextTimer := 8 }).voiceCalls =
      [("v", ⟨true, false, false⟩)] ∧
    (destroy
      { peer := true, peerId := "me", apiServerUrl := "srv",
        heartbeatInterval := some 5,
        connections := [("x", ⟨true, false, false⟩)],
        voiceCalls := [("v", ⟨true, false, false⟩)],
        localStream := true,
        connectionChangeCallbacks := [3], peerIdChangeCallbacks := [4],
        dataCallbacks := [6], playerRemovedCallbacks := [7],
        callCallbacks := [1], remoteStreamCallbacks := [2],
        intervalTimers := [5], nextTimer := 8 }).callCallbacks = [1] ∧
    (destroy
      { peer := true, peerId := "me", apiServerUrl := "srv",
        heartbeatInterval := some 5,
        connections := [("x", ⟨true, false, false⟩)],
        voiceCalls := [("v", ⟨true, false, false⟩)],
        localStream := true,
        connectionChangeCallbacks := [3], peerIdChangeCallbacks := [4],
        dataCallbacks := [6], playerRemovedCallbacks := [7],
        callCallbacks := [1], remoteStreamCallbacks := [2],
        intervalTimers := [5], nextTimer := 8 }).remoteStreamCallbacks =
      [2] := by
  decide

/-- C4, amended.  From any state — identity established or not — `destroy()`
stops the heartbeat, closes and removes every Session, releases the `Peer`
handle, resets identity and endpoint, and clears the connection-change,
peer-id-change, data and player-removed subscriber sets, all without
throwing (each close and the peer teardown are inside `try`/`catch`); it
does NOT touch the voice-call map or the call and remote-stream subscriber
sets. -/
theorem destroy_spec (s : MgrState) :
    (destroy s).heartbeatInterval = none ∧
    (destroy s).connections = [] ∧
    (destroy s).peer = false ∧
    (destroy s).peerId = "" ∧
    (destroy s).apiServerUrl = "" ∧
    (destroy s).connectionChangeCallbacks = [] ∧
    (destroy s).peerIdChangeCallbacks = [] ∧
    (destroy s).dataCallbacks = [] ∧
    (destroy s).playerRemovedCallbacks = [] ∧
    (destroy s).voiceCalls = s.voiceCalls ∧
    (destroy s).callCallbacks = s.callCallbacks ∧
    (destroy s).remoteStreamCallbacks = s.remoteStreamCallbacks := by
  cases h : s.heartbeatInterval with
  | none => simp [destroy, closeAllConnections, stopHeartbeat, h]
  | some tid => simp [destroy, closeAllConnections, stopHeartbeat, h]

/-- The heartbeat-timer invariant: the set of installed interval timers is
exactly the held handle. -/
def HBInv (s : MgrState) : Prop :=
  s.intervalTimers = s.heartbeatInterval.elim [] (fun t => [t])

/-- C10.  At most one heartbeat timer is ever active: `startHeartbeat`
cancels any existing timer before installing a new one (leaving exactly one
installed), `stopHeartbeat` cancels it and nulls the handle (leaving none),
and both preserve the invariant, so repeated `startHeartbeat` calls never
accumulate concurrent timers. -/
theorem heartbeat_timer_discipline (s : MgrState) (h : HBInv s) :
    (stopHeartbeat s).heartbeatInterval = none ∧
    (stopHeartbeat s).intervalTimers = [] ∧
    (∃ t, (startHeartbeat s).heartbeatInterval = some t ∧
      (startHeartbeat s).intervalTimers = [t]) ∧
    HBInv (startHeartbeat s) ∧ HBInv (stopHeartbeat s) := by
  cases hh : s.heartbeatInterval with
  | none =>
    have h0 : s.intervalTimers = [] := by simpa [HBInv, hh] using h
    refine ⟨by simp [stopHeartbeat, hh], by simp [stopHeartbeat, hh, h0],
      ⟨s.nextTimer, ?_, ?_⟩, ?_, ?_⟩
    · simp [startHeartbeat, stopHeartbeat, hh]
    · simp [startHeartbeat, stopHeartbeat, hh, h0]
    · simp [HBInv, startHeartbeat, stopHeartbeat, hh, h0]
    · simp [HBInv, stopHeartbeat, hh, h0]
  | some tid =>
    have h0 : s.intervalTimers = [tid] := by simpa [HBInv, hh] using h
    refine ⟨by simp [stopHeartbeat, hh], by simp [stopHeartbeat, hh, h0],
      ⟨s.nextTimer, ?_, ?_⟩, ?_, ?_⟩
    · simp [startHeartbeat, stopHeartbeat, hh]
    · simp [startHeartbeat, stopHeartbeat, hh, h0]
    · simp [HBInv, startHeartbeat, stopHeartbeat, hh, h0]
    · simp [HBInv, stopHeartbeat, hh, h0]

/-- Witness for C10 on a state holding one heartbeat timer. -/
theorem heartbeat_timer_discipline_witness :
    (stopHeartbeat
      { peer := true, peerId := "me", apiServerUrl := "srv",
        heartbeatInterval := some 3, connections := [], voiceCalls := [],
        localStream := false,
        connectionChangeCallbacks := [], peerIdChangeCallbacks := [],
        dataCallbacks := [], playerRemovedCallbacks := [],
        callCallbacks := [], remoteStreamCallbacks := [],
        intervalTimers := [3], nextTimer := 4 }).heartbeatInterval = none ∧
    (stopHeartbeat
      { peer := true, peerId := "me", apiServerUrl := "srv",
        heartbeatInterval := some 3, connections := [], voiceCalls := [],
        localStream := false,
        connectionChangeCallbacks := [], peerIdChangeCallbacks := [],
        dataCallbacks := [], playerRemovedCallbacks := [],
        callCallbacks := [], remoteStreamCallbacks := [],
        intervalTimers := [3], nextTimer := 4 }).intervalTimers = [] ∧
    (∃ t, (startHeartbeat
      { peer := true, peerId := "me", apiServerUrl := "srv",
        heartbeatInterval := some 3, connections := [], voiceCalls := [],
        localStream := false,
        connectionChangeCallbacks := [], peerIdChangeCallbacks := [],
        dataCallbacks := [], playerRemovedCallbacks := [],
        callCallbacks := [], remoteStreamCallbacks := [],
        intervalTimers := [3], nextTimer := 4 }).heartbeatInterval = some t ∧
      (startHeartbeat
      { peer := true, peerId := "me", apiServerUrl := "srv",
        heartbeatInterval := some 3, connections := [], voiceCalls := [],
        localStream := false,
        connectionChangeCallbacks := [], peerIdChangeCallbacks := [],
        dataCallbacks := [], playerRemovedCallbacks := [],
        callCallbacks := [], remoteStreamCallbacks := [],
        intervalTimers := [3], nextTimer := 4 }).intervalTimers = [t]) ∧
    HBInv (startHeartbeat
      { peer := true, peerId := "me", apiServerUrl := "srv",
        heartbeatInterval := some 3, connections := [], voiceCalls := [],
        localStream := false,
        connectionChangeCallbacks := [], peerIdChangeCallbacks := [],
        dataCallbacks := [], playerRemovedCallbacks := [],
        callCallbacks := [], remoteStreamCallbacks := [],
        intervalTimers := [3], nextTimer := 4 }) ∧
    HBInv (stopHeartbeat
      { peer := true, peerId := "me", apiServerUrl := "srv",
        heartbeatInterval := some 3, connections := [], voiceCalls := [],
        localStream := false,
        connectionChangeCallbacks := [], peerIdChangeCallbacks := [],
        dataCallbacks := [], playerRemovedCallbacks := [],
        callCallbacks := [], remoteStreamCallbacks := [],
        intervalTimers := [3], nextTimer := 4 }) :=
  heartbeat_timer_discipline
    { peer := true, peerId := "me", apiServerUrl := "srv",
      heartbeatInterval := some 3, connections := [], voiceCalls := [],
      localStream := false,
      connectionChangeCallbacks := [], peerIdChangeCallbacks := [],
      dataCallbacks := [], playerRemovedCallbacks := [],
      callCallbacks := [], remoteStreamCallbacks := [],
      intervalTimers := [3], nextTimer := 4 }
    (by unfold HBInv; decide)

/-! ## Reference semantics of the accessor surface
(`getConnections`, `getVoiceCalls`, `notifyConnectionChange`)

JavaScript objects are passed by reference, so returning `this.connections`
hands out the very map the orchestrator mutates, while
`new Map(this.connections)` allocates a copy.  We model a heap of `Map`
objects addressed by index; entry values are opaque tokens. -/

/-- A heap of JS `Map` objects; address = index into the store. -/
structure MapsHeap where
  store : List (List (String × Nat))
  deriving Repr, DecidableEq

/-- Dereference a map address. -/
def MapsHeap.read (h : MapsHeap) (a : Nat) : List (String × Nat) :=
  (h.store[a]?).getD []

/-- Overwrite the map object at an address. -/
def MapsHeap.write (h : MapsHeap) (a : Nat) (m : List (String × Nat)) :
    MapsHeap :=
  ⟨h.store.set a m⟩

/-- `new Map(src)`: allocate a fresh map object with copied contents. -/
def MapsHeap.alloc (h : MapsHeap) (m : List (String × Nat)) :
    MapsHeap × Nat :=
  (⟨h.store ++ [m]⟩, h.store.length)

/-- The orchestrator's own map references (`this.connections`,
`this.voiceCalls`). -/
structure OrchRefs where
  connectionsAddr : Nat
  voiceCallsAddr : Nat
  deriving Repr, DecidableEq

/-- `getConnections()`: `return this.connections` — the live reference. -/
def getConnections (o : OrchRefs) : Nat :=
  o.connectionsAddr

/-- `getVoiceCalls()`: `return this.voiceCalls` — the live reference. -/
def getVoiceCalls (o : OrchRefs) : Nat :=
  o.voiceCallsAddr

/-- The argument `notifyConnectionChange` passes to each subscriber:
`const connections = new Map(this.connections)` — a fresh copy. -/
def notifySnapshotArg (h : MapsHeap) (o : OrchRefs) : MapsHeap × Nat :=
  MapsHeap.alloc h (MapsHeap.read h o.connectionsAddr)

/-- A handler mutating the map it received: `received.set(k, v)`. -/
def handlerMutate (h : MapsHeap) (a : Nat) (k : String) (v : Nat) :
    MapsHeap :=
  MapsHeap.write h a (JsMap.set k v (MapsHeap.read h a))

/-- C9, counterexample.  The claim says every value handed out through the
public accessors is a snapshot, so a handler mutating it leaves the
orchestrator's maps unchanged.  But `getConnections()` returns
`this.connections` itself: mutating the returned map changes the
orchestrator's own map (here from `[("A", 1)]` to `[("A", 1), ("X", 7)]`). -/
theorem getConnections_alias_counterexample :
    MapsHeap.read
      (handlerMutate ⟨[[("A", 1)], []]⟩
        (getConnections ⟨0, 1⟩) "X" 7) 0 = [("A", 1), ("X", 7)] ∧
    MapsHeap.read (⟨[[("A", 1)], []]⟩ : MapsHeap) 0 = [("A", 1)] := by
  decide

/-- C9, amended.  The map passed to connection-change subscribers is a
snapshot copy (`new Map(this.connections)`): a handler mutating it leaves
the orchestrator's map unchanged.  The public accessors `getConnections` and
`getVoiceCalls`, however, return the orchestrator's own live map references,
so a handler mutating what they return mutates the orchestrator's map
itself. -/
theorem snapshot_callbacks_live_accessors (h : MapsHeap) (o : OrchRefs)
    (k : String) (v : Nat) (hlt : o.connectionsAddr < h.store.length) :
    MapsHeap.read
      (handlerMutate (notifySnapshotArg h o).1 (notifySnapshotArg h o).2 k v)
      o.connectionsAddr = MapsHeap.read h o.connectionsAddr ∧
    getConnections o = o.connectionsAddr ∧
    getVoiceCalls o = o.voiceCallsAddr ∧
    MapsHeap.read (handlerMutate h (getConnections o) k v)
      o.connectionsAddr =
      JsMap.set k v (MapsHeap.read h o.connectionsAddr) := by
  refine ⟨?_, rfl, rfl, ?_⟩
  · have hne : h.store.length ≠ o.connectionsAddr := by omega
    simp only [notifySnapshotArg, MapsHeap.alloc, handlerMutate,
      MapsHeap.write, MapsHeap.read]
    rw [List.getElem?_set_ne hne, List.getElem?_append_left hlt]
  · simp only [handlerMutate, MapsHeap.write, MapsHeap.read, getConnections]
    rw [List.getElem?_set_self hlt]
    simp

/-- Witness for C9 (amended) on a two-map heap. -/
theorem snapshot_callbacks_live_accessors_witness :
    MapsHeap.read
      (handlerMutate (notifySnapshotArg ⟨[[("A", 1)], []]⟩ ⟨0, 1⟩).1
        (notifySnapshotArg ⟨[[("A", 1)], []]⟩ ⟨0, 1⟩).2 "X" 7) 0 =
      MapsHeap.read ⟨[[("A", 1)], []]⟩ 0 ∧
    getConnections ⟨0, 1⟩ = 0 ∧
    getVoiceCalls ⟨0, 1⟩ = 1 ∧
    MapsHeap.read
      (handlerMutate ⟨[[("A", 1)], []]⟩ (getConnections ⟨0, 1⟩) "X" 7) 0 =
      JsMap.set "X" 7 (MapsHeap.read ⟨[[("A", 1)], []]⟩ 0) :=
  snapshot_callbacks_live_accessors ⟨[[("A", 1)], []]⟩ ⟨0, 1⟩ "X" 7
    (by decide)

end P2P
